import Mathlib

/-!
Verification of the connection/session layer of a WebSocket RPC client
(`src/index.ts`): request-id allocation, the pending-request correlation
table, inbound message demultiplexing, batched-query result normalization,
envelope construction, and connection setup.

Each definition is a shallow embedding of the corresponding TypeScript
function; line references point into `src/index.ts`.
-/

namespace SurrealBun

/-- JSON-like runtime values, modelling the JavaScript values the driver
handles (parsed frames, per-statement results). -/
inductive Json where
  | null : Json
  | bool : Bool → Json
  | num : Int → Json
  | str : String → Json
  | arr : List Json → Json
  | obj : List (String × Json) → Json
deriving Inhabited

/-! ## Request-id allocation

Source (`src/index.ts` lines 44-49):
```
private get id() \x7b
    if (this.state > 1000) \x7b this.state = 0 \x7d
    return this.state++
\x7d
```
`state` starts at 0 (line 39). -/

/-- One call of the `id` getter: given the current `state`, returns the
allocated id and the new `state`. -/
def idAlloc (state : Nat) : Nat × Nat :=
  (if state > 1000 then 0 else state, (if state > 1000 then 0 else state) + 1)

/-- The counter value after `k` allocations on a fresh handle (`state = 0`). -/
def stateAfter : Nat → Nat
  | 0 => 0
  | k + 1 => (idAlloc (stateAfter k)).2

/-- The id returned by the `k`-th allocation (1-based) on a fresh handle. -/
def nthAlloc (k : Nat) : Nat := (idAlloc (stateAfter (k - 1))).1

/-! ## JavaScript value helpers

Member access (`x.field`), property assignment, truthiness, and the
string conversions used by `Array.prototype.join` and `JSON.stringify`. -/

/-- First-match lookup of a key in an object's field list. -/
def lookupField : List (String × Json) → String → Option Json
  | [], _ => none
  | (k1, v) :: fs, k => if k1 = k then some v else lookupField fs k

/-- JS member access `j.k`: `none` models `undefined` (missing field or
access on a non-object). -/
def getField (j : Json) (k : String) : Option Json :=
  match j with
  | .obj fs => lookupField fs k
  | _ => none

/-- Replace the value of key `k`, or append it if absent. -/
def setFields : List (String × Json) → String → Json → List (String × Json)
  | [], k, v => [(k, v)]
  | (k1, v1) :: fs, k, v =>
    if k1 = k then (k1, v) :: fs else (k1, v1) :: setFields fs k v

/-- JS property assignment `j.k = v`; on a non-object value the assignment
has no effect on the value itself. -/
def setField : Json → String → Json → Json
  | .obj fs, k, v => .obj (setFields fs k v)
  | j, _, _ => j

/-- JS truthiness of a defined value. -/
def jsTruthy : Json → Bool
  | .null => false
  | .bool b => b
  | .num n => n != 0
  | .str s => s != ""
  | .arr _ => true
  | .obj _ => true

/-- JS truthiness of an optional-string field (`undefined` and `""` are
falsy). -/
def optStrTruthy : Option String → Bool
  | some s => s != ""
  | none => false

mutual

/-- JS `String(x)` conversion. -/
def jsToStr : Json → String
  | .null => "null"
  | .bool true => "true"
  | .bool false => "false"
  | .num n => toString n
  | .str s => s
  | .arr xs => jsJoinList xs
  | .obj _ => "[object Object]"

/-- `Array.prototype.toString`: elements joined with `","`, where a `null`
element converts to the empty string. -/
def jsJoinList : List Json → String
  | [] => ""
  | [.null] => ""
  | [x] => jsToStr x
  | .null :: xs => "," ++ jsJoinList xs
  | x :: xs => jsToStr x ++ "," ++ jsJoinList xs

end

/-- Element conversion used by `Array.prototype.join`: `null` (and, one
level up, `undefined`) convert to the empty string. -/
def jsElemStr : Json → String
  | .null => ""
  | j => jsToStr j

/-- Element conversion of `join` lifted to possibly-`undefined` values. -/
def joinConv : Option Json → String
  | none => ""
  | some j => jsElemStr j

/-- Hexadecimal digit character (lowercase), as emitted by
`JSON.stringify` unicode escapes. -/
def hexChar (n : Nat) : Char :=
  if n < 10 then Char.ofNat (48 + n) else Char.ofNat (87 + n)

/-- `JSON.stringify` escaping of one character inside a string literal. -/
def escapeStringChar (c : Char) : String :=
  if c = '"' then "\\\""
  else if c = '\\' then "\\\\"
  else if c = '\n' then "\\n"
  else if c = '\r' then "\\r"
  else if c = '\t' then "\\t"
  else if c.toNat = 8 then "\\b"
  else if c.toNat = 12 then "\\f"
  else if c.toNat < 32 then
    "\\u00" ++ String.singleton (hexChar (c.toNat / 16)) ++
      String.singleton (hexChar (c.toNat % 16))
  else String.singleton c

/-- `JSON.stringify` of a string value. -/
def stringifyString (s : String) : String :=
  "\"" ++ String.join (s.data.map escapeStringChar) ++ "\""

mutual

/-- `JSON.stringify` (integers only for numbers; the driver never
stringifies non-integer numbers). -/
def jsonStringify : Json → String
  | .null => "null"
  | .bool true => "true"
  | .bool false => "false"
  | .num n => toString n
  | .str s => stringifyString s
  | .arr xs => "[" ++ stringifyList xs ++ "]"
  | .obj fs => "\x7b" ++ stringifyFields fs ++ "\x7d"

def stringifyList : List Json → String
  | [] => ""
  | [x] => jsonStringify x
  | x :: xs => jsonStringify x ++ "," ++ stringifyList xs

def stringifyFields : List (String × Json) → String
  | [] => ""
  | [(k, v)] => stringifyString k ++ ":" ++ jsonStringify v
  | (k, v) :: fs => stringifyString k ++ ":" ++ jsonStringify v ++ "," ++ stringifyFields fs

end

/-! ## Envelope construction

Source (`src/index.ts` lines 113-115): the outbound envelope is built by
string interpolation, with `method` and the caller-supplied `params` text
inserted character-for-character, unescaped:
```
const sql = `\x7b"id":$\x7bid\x7d,"method":"$\x7bmethod\x7d"$\x7b
    params ? `,"params":$\x7bparams\x7d` : ""
\x7d\x7d`
```
-/

/-- The envelope text `send` transmits (`src/index.ts` lines 113-115).
`params` is the already-serialized parameter text; the JS conditional
`params ? … : ""` treats an empty string as absent. -/
def buildSql (id : Nat) (method : String) (params : Option String) : String :=
  "\x7b\"id\":" ++ Nat.repr id ++ ",\"method\":\"" ++ method ++ "\"" ++
    (match params with
     | some p => if p = "" then "" else ",\"params\":" ++ p
     | none => "") ++ "\x7d"

/-- The parameter text built by `use` (`src/index.ts` lines 130-132):
`["$\x7bns\x7d","$\x7bdb\x7d"]`, again unescaped interpolation. -/
def useParams (ns db : String) : String :=
  "[\"" ++ ns ++ "\",\"" ++ db ++ "\"]"

/-! ## Errors and `send` completion -/

/-- `SurrealError` (`src/index.ts` lines 1-5): a message plus an arbitrary
detail value. Fields are optional values because in JS either may be
`undefined`. -/
structure SurrealError where
  message : Option Json
  detail : Option Json

/-- The completion step of `send` (`src/index.ts` lines 120-127): after the
awaited frame `result` arrives, `if (result.error)` attaches the outbound
envelope (`result.error.sql = sql`) and throws
`new SurrealError(result.error.message, result.error)`; otherwise
`return result.result`. -/
def sendComplete (sql : String) (result : Json) : Except SurrealError (Option Json) :=
  match getField result "error" with
  | some err =>
    if jsTruthy err then
      .error ⟨getField (setField err "sql" (.str sql)) "message",
              some (setField err "sql" (.str sql))⟩
    else .ok (getField result "result")
  | none => .ok (getField result "result")

/-! ## Batched query normalization

Source (`src/index.ts` lines 205-224). `query` stringifies the statement
text and optional bound parameters, sends them, and then maps over the
array of per-statement outcomes, collecting `ERR` outcomes' messages and
replacing their slots with `undefined`. -/

/-- `JSON.stringify(ql) + (params ? "," + JSON.stringify(params) : "")`
(`src/index.ts` line 206). `params` is typed `object`, so any supplied
value is truthy. -/
def mkQuerySql (ql : String) (params : Option Json) : String :=
  stringifyString ql ++
    (match params with
     | some p => "," ++ jsonStringify p
     | none => "")

/-- The `response.result.map(…)` pass (`src/index.ts` lines 210-217):
returns the collected error values (`errs`, in statement order) and the
per-statement result slots (`undefined` for an `ERR` slot, the statement's
`result` field otherwise). -/
def queryScan : List Json → List (Option Json) × List (Option Json)
  | [] => ([], [])
  | e :: es =>
    let rest := queryScan es
    match getField e "status" with
    | some (.str s) =>
      if s = "ERR" then (getField e "result" :: rest.1, none :: rest.2)
      else (rest.1, getField e "result" :: rest.2)
    | _ => (rest.1, getField e "result" :: rest.2)

/-- The per-statement error test of line 212 (`e.status === "ERR"`). -/
def isErr (e : Json) : Bool :=
  match getField e "status" with
  | some (.str s) => s = "ERR"
  | _ => false

/-- The result-normalization step of `query` (`src/index.ts` lines
205-224), applied to the array of per-statement outcomes the code maps
over. If any outcome was tagged `ERR`, throws one `SurrealError` whose
message joins the collected error values with `";"` and whose detail is
`\x7b sql \x7d`; otherwise returns the ordered slots. -/
def query (ql : String) (params : Option Json) (outcomes : List Json) :
    Except SurrealError (List (Option Json)) :=
  let sql := mkQuerySql ql params
  let scanned := queryScan outcomes
  if scanned.1.isEmpty then .ok scanned.2
  else .error ⟨some (.str (String.intercalate ";" (scanned.1.map joinConv))),
               some (.obj [("sql", .str sql)])⟩

/-! ## JSON text grammar

A decision procedure for JSON (RFC 8259) well-formedness, modelling
`JSON.parse` as the handler uses it (`src/index.ts` line 80) and giving
claim C10's "valid JSON" a precise meaning. Two deliberate relaxations,
neither reachable from this repository's claims: integer literals may
carry leading zeros, and a number's fraction/exponent part is validated
but its value is modelled by the integer part alone. -/

/-- The `\x7b` character. -/
def lbraceChar : Char := Char.ofNat 123

/-- The `\x7d` character. -/
def rbraceChar : Char := Char.ofNat 125

/-- JSON insignificant whitespace. -/
def isWsChar (c : Char) : Bool :=
  c = ' ' || c = '\n' || c = '\t' || c = '\r'

def skipWs : List Char → List Char
  | [] => []
  | c :: cs => if isWsChar c then skipWs cs else c :: cs

/-- Expect the literal characters `ls` as a prefix, returning the rest. -/
def dropLit : List Char → List Char → Option (List Char)
  | [], cs => some cs
  | _ :: _, [] => none
  | l :: ls, c :: cs => if c = l then dropLit ls cs else none

/-- Decode a single-character string escape. -/
def escDecode (c : Char) : Option Char :=
  if c = '"' then some '"'
  else if c = '\\' then some '\\'
  else if c = '/' then some '/'
  else if c = 'b' then some (Char.ofNat 8)
  else if c = 'f' then some (Char.ofNat 12)
  else if c = 'n' then some '\n'
  else if c = 'r' then some '\r'
  else if c = 't' then some '\t'
  else none

/-- Value of a hexadecimal digit character. -/
def hexVal (c : Char) : Option Nat :=
  if '0' ≤ c ∧ c ≤ '9' then some (c.toNat - 48)
  else if 'a' ≤ c ∧ c ≤ 'f' then some (c.toNat - 87)
  else if 'A' ≤ c ∧ c ≤ 'F' then some (c.toNat - 55)
  else none

/-- Parse the body of a JSON string literal (the opening `"` already
consumed): returns the decoded content and the remaining input.
Unescaped control characters (below U+0020), a lone backslash, and
unknown escapes are rejected, as `JSON.parse` rejects them. -/
def parseStringBody : List Char → Option (List Char × List Char)
  | [] => none
  | c :: cs =>
    if c = '"' then some ([], cs)
    else if c = '\\' then
      match cs with
      | [] => none
      | e :: cs2 =>
        if e = 'u' then
          match cs2 with
          | h1 :: h2 :: h3 :: h4 :: cs3 =>
            match hexVal h1, hexVal h2, hexVal h3, hexVal h4 with
            | some a, some b, some m, some d =>
              match parseStringBody cs3 with
              | some (content, rest) =>
                some (Char.ofNat (((a * 16 + b) * 16 + m) * 16 + d) :: content, rest)
              | none => none
            | _, _, _, _ => none
          | _ => none
        else
          match escDecode e with
          | some d =>
            match parseStringBody cs2 with
            | some (content, rest) => some (d :: content, rest)
            | none => none
          | none => none
    else if c.toNat < 32 then none
    else
      match parseStringBody cs with
      | some (content, rest) => some (c :: content, rest)
      | none => none

/-- Split off a maximal run of decimal digits. -/
def takeDigits : List Char → List Char × List Char
  | [] => ([], [])
  | c :: cs =>
    if c.isDigit then
      let r := takeDigits cs
      (c :: r.1, r.2)
    else ([], c :: cs)

/-- Numeric value of a digit run. -/
def digitsVal (ds : List Char) : Nat :=
  ds.foldl (fun acc c => acc * 10 + (c.toNat - 48)) 0

/-- Parse a JSON number token: optional minus, digit run, optional
fraction and exponent (validated; value taken from the integer part). -/
def parseNumber (cs : List Char) : Option (Json × List Char) :=
  let signSplit : Bool × List Char :=
    match cs with
    | c :: r => if c = '-' then (true, r) else (false, cs)
    | [] => (false, cs)
  match takeDigits signSplit.2 with
  | ([], _) => none
  | (d :: ds, rest) =>
    let intVal : Int := Int.ofNat (digitsVal (d :: ds))
    let fracSplit : Bool × List Char :=
      match rest with
      | p :: r2 =>
        if p = '.' then
          match takeDigits r2 with
          | ([], _) => (false, rest)
          | (_ :: _, r3) => (true, r3)
        else (true, rest)
      | [] => (true, rest)
    if fracSplit.1 then
      let expSplit : Bool × List Char :=
        match fracSplit.2 with
        | e :: r4 =>
          if e = 'e' ∨ e = 'E' then
            let r5 :=
              match r4 with
              | s :: r6 => if s = '+' ∨ s = '-' then r6 else r4
              | [] => r4
            match takeDigits r5 with
            | ([], _) => (false, fracSplit.2)
            | (_ :: _, r7) => (true, r7)
          else (true, fracSplit.2)
        | [] => (true, fracSplit.2)
      if expSplit.1 then
        some (.num (if signSplit.1 then -intVal else intVal), expSplit.2)
      else none
    else none

mutual

/-- Parse one JSON value. `fuel` bounds the recursion; every recursive
call spends one unit, so any `fuel` larger than the number of values in
the input suffices. -/
def parseValue : Nat → List Char → Option (Json × List Char)
  | 0, _ => none
  | fuel + 1, cs =>
    match skipWs cs with
    | [] => none
    | c :: rest =>
      if c = 'n' then
        match dropLit ['u', 'l', 'l'] rest with
        | some r => some (.null, r)
        | none => none
      else if c = 't' then
        match dropLit ['r', 'u', 'e'] rest with
        | some r => some (.bool true, r)
        | none => none
      else if c = 'f' then
        match dropLit ['a', 'l', 's', 'e'] rest with
        | some r => some (.bool false, r)
        | none => none
      else if c = '"' then
        match parseStringBody rest with
        | some (content, r) => some (.str (String.mk content), r)
        | none => none
      else if c = '[' then
        match skipWs rest with
        | c2 :: r2 =>
          if c2 = ']' then some (.arr [], r2)
          else
            match parseElems fuel (c2 :: r2) with
            | some (xs, r3) => some (.arr xs, r3)
            | none => none
        | [] => none
      else if c = lbraceChar then
        match skipWs rest with
        | c2 :: r2 =>
          if c2 = rbraceChar then some (.obj [], r2)
          else
            match parseMembers fuel (c2 :: r2) with
            | some (fs, r3) => some (.obj fs, r3)
            | none => none
        | [] => none
      else parseNumber (c :: rest)

/-- Parse the comma-separated elements of a non-empty array, up to and
including the closing `]`. -/
def parseElems : Nat → List Char → Option (List Json × List Char)
  | 0, _ => none
  | fuel + 1, cs =>
    match parseValue fuel cs with
    | some (v, r) =>
      match skipWs r with
      | c :: r2 =>
        if c = ',' then
          match parseElems fuel r2 with
          | some (vs, r3) => some (v :: vs, r3)
          | none => none
        else if c = ']' then some ([v], r2)
        else none
      | [] => none
    | none => none

/-- Parse the members of a non-empty object, up to and including the
closing brace. -/
def parseMembers : Nat → List Char → Option (List (String × Json) × List Char)
  | 0, _ => none
  | fuel + 1, cs =>
    match skipWs cs with
    | c :: r =>
      if c = '"' then
        match parseStringBody r with
        | some (key, r2) =>
          match skipWs r2 with
          | c2 :: r3 =>
            if c2 = ':' then
              match parseValue fuel r3 with
              | some (v, r4) =>
                match skipWs r4 with
                | c3 :: r5 =>
                  if c3 = ',' then
                    match parseMembers fuel r5 with
                    | some (fs, r6) => some ((String.mk key, v) :: fs, r6)
                    | none => none
                  else if c3 = rbraceChar then some ([(String.mk key, v)], r5)
                  else none
                | [] => none
              | none => none
            else none
          | [] => none
        | none => none
      else none
    | [] => none

end

/-- `JSON.parse`: a text is well-formed JSON iff this returns `some`.
The fuel `length + 1` always suffices because each parsed value consumes
at least one character. -/
def parseJsonFull (s : String) : Option Json :=
  match parseValue (s.length + 1) s.data with
  | some (j, rest) => if skipWs rest = [] then some j else none
  | none => none

/-! ## Pending-request correlation table and inbound demultiplexing

Source (`src/index.ts` lines 40-42 and 78-99). A channel entry holds the
two promise continuations and the outbound envelope; here the pair of
continuations is identified by `callIdx`, the index of the `send()` call
whose promise they settle, and the handler is parameterized by `rf`, which
says whether (and with what exception value) the success continuation
itself throws when invoked. -/

/-- One entry of `this.channels` (lines 40-42, registered at line 117). -/
structure Entry where
  callIdx : Nat
  sql : String

/-- The correlation table `this.channels`: request id to pending entry. -/
abbrev Channels : Type := Int → Option Entry

/-- Store (`some`) or delete (`none`) the entry at key `i`. -/
def setCh (ch : Channels) (i : Int) (e : Option Entry) : Channels :=
  fun j => if j = i then e else ch j

/-- What one run of the message handler did. The handler's only effects
are updating the table and one of these; the constructor carries the data
the corresponding source branch uses. -/
inductive DemuxAction where
  | parseFailure (msg : String)
  | orphan (id : Option Int)
  | resolved (e : Entry) (frame : Json)
  | redirected (e : Entry) (err : Json)

/-- The handler body after a successful `JSON.parse` (lines 80-95):
extract `app.id`, look up the channel (missing id or non-numeric id gives
a lookup miss and the warn-and-drop branch), then
`try \x7b channel.resolve(app) \x7d catch (err) \x7b channel.reject(err) \x7d
finally \x7b delete this.channels[app.id] \x7d`.
`rf e app = some err` models the success continuation throwing `err`. -/
def handleParsed (rf : Entry → Json → Option Json) (ch : Channels) (app : Json) :
    Channels × DemuxAction :=
  match getField app "id" with
  | some (.num i) =>
    match ch i with
    | none => (ch, .orphan (some i))
    | some e =>
      match rf e app with
      | none => (setCh ch i none, .resolved e app)
      | some err => (setCh ch i none, .redirected e err)
  | _ => (ch, .orphan none)

/-- Result of one run of the `message` listener on a raw frame. The
source handler never calls `ws.close()`, so `closedConnection` is the
(constantly `false`) record of that capability. -/
structure HandlerResult where
  channels : Channels
  action : DemuxAction
  closedConnection : Bool

/-- The full `message` listener (lines 78-99): `JSON.parse` the frame
text; on failure throw a reported `SurrealError` (line 97) without
touching the table or the socket; on success run `handleParsed`. -/
def handleRaw (rf : Entry → Json → Option Json) (ch : Channels) (raw : String) :
    HandlerResult :=
  match parseJsonFull raw with
  | none => ⟨ch, .parseFailure ("Failed parse JSON from surreal: " ++ raw), false⟩
  | some app =>
    let r := handleParsed rf ch app
    ⟨r.1, r.2, false⟩

/-! ## Response multiplexing across concurrent `send()` calls (C1)

`send` (lines 108-120) allocates an id, registers
`this.channels[id] = \x7b resolve, reject, sql \x7d`, transmits, and
suspends on the promise; the handler fulfils the promise of the matching
entry with the whole parsed frame. `completed k` records the value with
which call `k`'s awaited promise was fulfilled. Promise `resolve` itself
never throws, hence `rf` is constantly `none` here. -/

/-- Correlation table plus the fulfilled-promise record of each call. -/
structure MuxState where
  channels : Channels
  completed : Nat → Option Json

/-- One inbound parsed frame demultiplexed (lines 80-95): when a pending
entry matches, its call's promise is fulfilled with the frame. -/
def deliver (st : MuxState) (app : Json) : MuxState :=
  match handleParsed (fun _ _ => none) st.channels app with
  | (ch, .resolved e frame) =>
    ⟨ch, fun k => if k = e.callIdx then some frame else st.completed k⟩
  | (ch, _) => ⟨ch, st.completed⟩

/-- Demultiplex a sequence of inbound frames in arrival order. -/
def deliverAll (st : MuxState) (frames : List Json) : MuxState :=
  frames.foldl deliver st

/-- The dispatch phase of calls `ks` (lines 111-118 run per call, in call
order): each call draws an id from the shared counter and registers its
entry — with its envelope built from that id — under that id. -/
def dispatchList (methodOf : Nat → String) (paramsOf : Nat → Option String) :
    Channels × Nat → List Nat → Channels × Nat
  | acc, [] => acc
  | (ch, st), k :: ks =>
    dispatchList methodOf paramsOf
      (setCh ch (Int.ofNat (idAlloc st).1)
        (some ⟨k, buildSql (idAlloc st).1 (methodOf k) (paramsOf k)⟩),
       (idAlloc st).2) ks

/-- Dispatch calls `0, …, N-1` on a fresh handle (counter `0`). -/
def dispatchN (methodOf : Nat → String) (paramsOf : Nat → Option String)
    (N : Nat) : Channels × Nat :=
  dispatchList methodOf paramsOf (fun _ => none, 0) (List.range N)

/-- State after `N` concurrent `send()` calls have dispatched and before
any response arrived: table populated, no promise fulfilled yet. -/
def initMux (methodOf : Nat → String) (paramsOf : Nat → Option String)
    (N : Nat) : MuxState :=
  ⟨(dispatchN methodOf paramsOf N).1, fun _ => none⟩

/-! ## Connection setup under concurrent first calls (C5)

Source (`src/index.ts` lines 51-75). `setup()` runs
`if (this.ws && this.ws.readyState === OPEN) return` and then
`this.ws = await this.createWebSocket()`; `createWebSocket` constructs
`new WebSocket(url)` synchronously and resolves on the open event. Each
caller of `setup` therefore progresses through at most two asynchronous
phases, and the interleaving of several callers is a schedule of caller
indexes, each occurrence advancing that caller by one phase. -/

/-- Progress of one `setup()` caller: `start` = about to run the line-71
guard; `awaitingOpen` = it constructed a socket and is suspended at the
`await`; `done` = its `setup` returned. -/
inductive CallPhase where
  | start
  | awaitingOpen
  | done
deriving DecidableEq

/-- Handle state shared by all callers: whether `this.ws` holds an open
socket, how many `new WebSocket` constructions ran, and each caller's
phase. -/
structure SetupWorld where
  wsOpen : Bool
  socketsCreated : Nat
  phases : Nat → CallPhase

/-- Advance caller `c` by one phase: at `start`, the guard either returns
at once (socket already open) or constructs a new socket and suspends; at
`awaitingOpen`, the open event fires and `this.ws` is assigned the open
socket. -/
def stepSetup (w : SetupWorld) (c : Nat) : SetupWorld :=
  match w.phases c with
  | .start =>
    if w.wsOpen then
      { w with phases := fun j => if j = c then .done else w.phases j }
    else
      { wsOpen := w.wsOpen
        socketsCreated := w.socketsCreated + 1
        phases := fun j => if j = c then .awaitingOpen else w.phases j }
  | .awaitingOpen =>
    { wsOpen := true
      socketsCreated := w.socketsCreated
      phases := fun j => if j = c then .done else w.phases j }
  | .done => w

/-- Run a schedule of caller steps. -/
def runSetup (w : SetupWorld) (sched : List Nat) : SetupWorld :=
  sched.foldl stepSetup w

/-- Fresh handle, no caller started. -/
def initWorld : SetupWorld := ⟨false, 0, fun _ => .start⟩

/-- The non-overlapping schedule: each caller runs to completion before
the next begins. -/
def seqSched : Nat → List Nat
  | 0 => []
  | n + 1 => seqSched n ++ [n, n]

/-! ## Wire-event trace of a first call (C9)

Source (`src/index.ts` lines 70-128). The observable events of one caller
executing `send(method, params)` on a handle whose connection is not yet
open, with the server answering each request: the socket opens (line 75),
`setup` issues the session-scoping `use` call when namespace and database
were supplied (lines 101-103, truthiness of `this.opt?.ns && this.opt.db`),
each `send` transmits its envelope (line 118) and suspends until its
response frame is demultiplexed (line 120), and `setup` returns to its
triggering caller. The inner `setup()` of the scoping `use` sees the open
socket and returns at line 72 without observable effect. -/

inductive Event where
  | socketOpened
  | wireSent (frame : String)
  | frameReceived (id : Nat)
  | setupReturned
deriving DecidableEq

/-- Constructor options (`opt.ns` / `opt.db`, lines 26-30). -/
structure ConnOpts where
  ns : Option String
  db : Option String

/-- Handle state threaded through the trace. -/
structure TraceState where
  wsOpen : Bool
  counter : Nat
  opt : Option ConnOpts

/-- The line-101 condition `this.opt?.ns && this.opt.db`: both fields
present and non-empty (JS truthiness for strings). -/
def credOf (o : Option ConnOpts) : Option (String × String) :=
  match o with
  | some c =>
    match c.ns with
    | some ns =>
      if ns = "" then none
      else
        match c.db with
        | some db => if db = "" then none else some (ns, db)
        | none => none
    | none => none
  | none => none

mutual

/-- Events of one `setup()` run (lines 70-104). -/
def setupEvents (st : TraceState) : List Event × TraceState :=
  if st.wsOpen then ([], st)
  else
    match credOf st.opt with
    | some nsdb =>
      let r := sendEvents { st with wsOpen := true } "use" (some (useParams nsdb.1 nsdb.2))
      (.socketOpened :: r.1 ++ [.setupReturned], r.2)
    | none => ([.socketOpened, .setupReturned], { st with wsOpen := true })
termination_by (if st.wsOpen then 0 else 2)
decreasing_by simp_all

/-- Events of one `send(method, params)` call (lines 108-120): await
`setup`, allocate an id, transmit the envelope built from it, await the
matching response frame. -/
def sendEvents (st : TraceState) (method : String) (params : Option String) :
    List Event × TraceState :=
  let r0 := setupEvents st
  (r0.1 ++ [.wireSent (buildSql (idAlloc r0.2.counter).1 method params),
            .frameReceived (idAlloc r0.2.counter).1],
   { r0.2 with counter := (idAlloc r0.2.counter).2 })
termination_by (if st.wsOpen then 0 else 2) + 1
decreasing_by simp

end

/-- The frame of a `wireSent` event, if any. -/
def sentFrame : Event → Option String
  | .wireSent f => some f
  | _ => none

/-- A character that survives unescaped interpolation into a JSON string
literal: not a double quote, not a backslash, not a control character. -/
def jsonSafeChar (c : Char) : Bool :=
  c != '"' && c != '\\' && decide (32 ≤ c.toNat)

/-- All characters of `s` are safe to interpolate into a string literal. -/
def jsonSafeStr (s : String) : Bool :=
  s.data.all jsonSafeChar

theorem stateAfter_closed : ∀ k, stateAfter (k + 1) = k % 1001 + 1 := by
  intro k
  induction k with
  | zero => rfl
  | succ n ih =>
    show (idAlloc (stateAfter (n + 1))).2 = (n + 1) % 1001 + 1
    rw [ih]
    simp only [idAlloc]
    rcases Nat.lt_or_ge (n % 1001) 1000 with h | h
    · rw [if_neg (by omega)]
      omega
    · rw [if_pos (by omega)]
      omega

theorem nthAlloc_closed : ∀ k, 1 ≤ k → nthAlloc k = (k - 1) % 1001 := by
  intro k hk
  match k, hk with
  | 1, _ => rfl
  | (n + 2), _ =>
    show (idAlloc (stateAfter (n + 1))).1 = (n + 2 - 1) % 1001
    rw [stateAfter_closed n]
    simp only [idAlloc]
    rcases Nat.lt_or_ge (n % 1001) 1000 with h | h
    · rw [if_neg (by omega)]
      omega
    · rw [if_pos (by omega)]
      omega

/-! ## Helper lemmas: field access and assignment -/

theorem lookupField_setFields (fs : List (String × Json)) (k k' : String) (v : Json)
    (h : k' ≠ k) : lookupField (setFields fs k v) k' = lookupField fs k' := by
  induction fs with
  | nil =>
    simp only [setFields, lookupField]
    rw [if_neg (fun hk => h hk.symm)]
  | cons p fs ih =>
    obtain ⟨k1, v1⟩ := p
    by_cases h1 : k1 = k
    · subst h1
      simp only [setFields, if_pos rfl, lookupField]
      rw [if_neg (fun hk => h hk.symm), if_neg (fun hk => h hk.symm)]
    · simp only [setFields, if_neg h1, lookupField]
      by_cases h2 : k1 = k'
      · rw [if_pos h2, if_pos h2]
      · rw [if_neg h2, if_neg h2, ih]

theorem getField_setField (j : Json) (k : String) (v : Json) (k' : String)
    (h : k' ≠ k) : getField (setField j k v) k' = getField j k' := by
  cases j <;> simp only [setField, getField]
  exact lookupField_setFields _ _ _ _ h

/-! ## Helper lemmas: query scanning -/

theorem queryScan_fst (l : List Json) :
    (queryScan l).1 = (l.filter isErr).map fun e => getField e "result" := by
  induction l with
  | nil => rfl
  | cons e es ih =>
    simp only [queryScan, List.filter]
    cases hst : getField e "status" with
    | none => simpa [isErr, hst] using ih
    | some v =>
      cases v with
      | str s =>
        by_cases hs : s = "ERR"
        · subst hs
          simp [isErr, hst, ih]
        · simp [isErr, hst, hs, ih]
      | null => simpa [isErr, hst] using ih
      | bool b => simpa [isErr, hst] using ih
      | num n => simpa [isErr, hst] using ih
      | arr xs => simpa [isErr, hst] using ih
      | obj fs => simpa [isErr, hst] using ih

theorem queryScan_noerr (l : List Json) (h : ∀ e ∈ l, isErr e = false) :
    queryScan l = ([], l.map fun e => getField e "result") := by
  induction l with
  | nil => rfl
  | cons e es ih =>
    have he : isErr e = false := h e (List.mem_cons_self e es)
    have ihe := ih fun x hx => h x (List.mem_cons_of_mem e hx)
    simp only [queryScan, List.map, ihe]
    cases hst : getField e "status" with
    | none => rfl
    | some v =>
      cases v with
      | str s =>
        have hs : ¬ s = "ERR" := by
          intro hs
          rw [isErr, hst, hs] at he
          simp at he
        simp [hs]
      | null => rfl
      | bool b => rfl
      | num n => rfl
      | arr xs => rfl
      | obj fs => rfl

/-! ## C2 — request-id allocation sequence -/

/-- C2, counterexample to the claim as stated: the 1001st allocation on a
fresh handle returns 1000, not `(1001 - 1) % 1000 = 0` — the guard
`state > 1000` wraps only after the counter exceeds 1000, so ids cycle
through 0..1000 with period 1001, not 1000. -/
theorem c2_alloc_counterexample :
    nthAlloc 1001 = 1000 ∧ (1001 - 1) % 1000 = 0 ∧ ¬ nthAlloc 1001 = (1001 - 1) % 1000 := by
  have h := nthAlloc_closed 1001 (by norm_num)
  norm_num at h
  exact ⟨h, by norm_num, by omega⟩

/-- C2 (amended): on a fresh handle the k-th call of the id allocator
returns `(k-1) mod 1001`: the counter starts at 0, increments on every
allocation, and wraps back to 0 only once it exceeds 1000; the 1st
allocation returns 0, the 1001st returns 1000, and the 1002nd returns 0. -/
theorem c2_alloc_mod_1001 :
    (∀ k, 1 ≤ k → nthAlloc k = (k - 1) % 1001) ∧
    nthAlloc 1 = 0 ∧ nthAlloc 1001 = 1000 ∧ nthAlloc 1002 = 0 := by
  refine ⟨nthAlloc_closed, rfl, ?_, ?_⟩
  · have h := nthAlloc_closed 1001 (by norm_num)
    norm_num at h
    exact h
  · have h := nthAlloc_closed 1002 (by norm_num)
    norm_num at h
    exact h

/-- Witness for `c2_alloc_mod_1001` at `k = 5`. -/
theorem c2_alloc_mod_1001_witness : 1 ≤ 5 ∧ nthAlloc 5 = (5 - 1) % 1001 :=
  ⟨by norm_num, c2_alloc_mod_1001.1 5 (by norm_num)⟩

/-! ## C3 — batched query, all statements succeed -/

/-- C3: when no per-statement outcome is tagged `ERR`, `query` returns the
ordered sequence of each statement's own `result` value — one slot per
statement in statement order (a statement with an absent result occupies
its slot with the absent value), so positional correspondence and length
are preserved. -/
theorem c3_query_ok_results (ql : String) (params : Option Json) (outcomes : List Json)
    (h : ∀ e ∈ outcomes, isErr e = false) :
    query ql params outcomes = .ok (outcomes.map fun e => getField e "result") ∧
    (outcomes.map fun e => getField e "result").length = outcomes.length := by
  refine ⟨?_, by simp⟩
  unfold query
  rw [queryScan_noerr outcomes h]
  rfl

/-- Witness for `c3_query_ok_results`: one succeeding statement, as in the
claim's `query("SELECT 1")` instance — a length-1 sequence holding that
statement's result. -/
theorem c3_query_ok_results_witness :
    (∀ e ∈ [Json.obj [("status", .str "OK"), ("result", .num 1)]], isErr e = false) ∧
    query "SELECT 1" none [Json.obj [("status", .str "OK"), ("result", .num 1)]] =
      .ok [some (.num 1)] :=
  ⟨by decide,
   (c3_query_ok_results "SELECT 1" none
     [Json.obj [("status", .str "OK"), ("result", .num 1)]] (by decide)).1⟩

/-! ## C4 — batched query, at least one statement fails -/

/-- C4: when at least one per-statement outcome is tagged `ERR`, `query`
raises exactly one aggregated `SurrealError` whose message joins all the
failing statements' error values with `";"` in statement order, and whose
detail is `\x7b sql \x7d` carrying the original combined request text —
even if other statements in the batch succeeded. -/
theorem c4_query_error_aggregation (ql : String) (params : Option Json)
    (outcomes : List Json) (h : ∃ e ∈ outcomes, isErr e = true) :
    query ql params outcomes =
      .error ⟨some (.str (String.intercalate ";"
                ((outcomes.filter isErr).map fun e => joinConv (getField e "result")))),
              some (.obj [("sql", .str (mkQuerySql ql params))])⟩ := by
  unfold query
  have hfst := queryScan_fst outcomes
  have hne : (queryScan outcomes).1.isEmpty = false := by
    rw [hfst]
    obtain ⟨e, he, herr⟩ := h
    have hmem : e ∈ outcomes.filter isErr := List.mem_filter.2 ⟨he, herr⟩
    cases hf : outcomes.filter isErr with
    | nil => rw [hf] at hmem; simp at hmem
    | cons a as => rfl
  simp only [hne, Bool.false_eq_true, if_false]
  simp only [hfst, List.map_map]
  rfl

/-- Witness for `c4_query_error_aggregation`: a mixed batch — fail,
succeed, fail — aggregates into the single message `"boom;bad"` with the
stringified request attached, though the middle statement succeeded. -/
theorem c4_query_error_aggregation_witness :
    (∃ e ∈ [Json.obj [("status", .str "ERR"), ("result", .str "boom")],
            Json.obj [("status", .str "OK"), ("result", .num 1)],
            Json.obj [("status", .str "ERR"), ("result", .str "bad")]], isErr e = true) ∧
    query "X" none
        [Json.obj [("status", .str "ERR"), ("result", .str "boom")],
         Json.obj [("status", .str "OK"), ("result", .num 1)],
         Json.obj [("status", .str "ERR"), ("result", .str "bad")]] =
      .error ⟨some (.str "boom;bad"), some (.obj [("sql", .str "\"X\"")])⟩ := by
  refine ⟨by decide, ?_⟩
  exact c4_query_error_aggregation "X" none
    [Json.obj [("status", .str "ERR"), ("result", .str "boom")],
     Json.obj [("status", .str "OK"), ("result", .num 1)],
     Json.obj [("status", .str "ERR"), ("result", .str "bad")]] (by decide)

/-! ## C6 — demultiplexer cleanup and redirect -/

/-- C6: for an inbound parsed frame whose id has a pending entry, the
handler settles that entry's promise pair exactly once — `resolve` with
the whole frame when it does not throw, otherwise `reject` with the error
`resolve` raised — and in either case the `finally` block removes exactly
that entry from the table, leaving every other key untouched. -/
theorem c6_demux_cleanup (rf : Entry → Json → Option Json) (ch : Channels) (app : Json)
    (i : Int) (e : Entry) (hid : getField app "id" = some (.num i)) (hch : ch i = some e) :
    (handleParsed rf ch app).1 i = none ∧
    (∀ j, j ≠ i → (handleParsed rf ch app).1 j = ch j) ∧
    (rf e app = none → (handleParsed rf ch app).2 = .resolved e app) ∧
    (∀ err, rf e app = some err → (handleParsed rf ch app).2 = .redirected e err) := by
  unfold handleParsed
  simp only [hid, hch]
  cases hrf : rf e app with
  | none =>
    refine ⟨by simp [setCh], fun j hj => by simp [setCh, hj], fun _ => rfl,
      fun err herr => ?_⟩
    cases herr
  | some err0 =>
    refine ⟨by simp [setCh], fun j hj => by simp [setCh, hj], fun habs => ?_,
      fun err herr => ?_⟩
    · cases habs
    · cases herr
      rfl

/-- Witness for `c6_demux_cleanup`: a pending entry at id 5 whose success
continuation throws — the error is redirected to `reject` and the entry is
still removed. -/
theorem c6_demux_cleanup_witness :
    getField (.obj [("id", .num 5), ("result", .null)]) "id" = some (.num 5) ∧
    (fun j => if j = (5 : Int) then some (Entry.mk 2 "s") else none) (5 : Int) =
      some (Entry.mk 2 "s") ∧
    (handleParsed (fun _ _ => some (.str "cb"))
        (fun j => if j = (5 : Int) then some (Entry.mk 2 "s") else none)
        (.obj [("id", .num 5), ("result", .null)])).1 5 = none ∧
    (handleParsed (fun _ _ => some (.str "cb"))
        (fun j => if j = (5 : Int) then some (Entry.mk 2 "s") else none)
        (.obj [("id", .num 5), ("result", .null)])).2 =
      .redirected (Entry.mk 2 "s") (.str "cb") := by
  have h := c6_demux_cleanup (fun _ _ => some (.str "cb"))
    (fun j => if j = (5 : Int) then some (Entry.mk 2 "s") else none)
    (.obj [("id", .num 5), ("result", .null)]) 5 (Entry.mk 2 "s") rfl rfl
  exact ⟨rfl, rfl, h.1, h.2.2.2 _ rfl⟩

/-! ## C7 — send completion: protocol error vs result -/

/-- C7: on completion of `send`, a frame carrying a (truthy, per the wire
protocol an object and hence truthy) `error` field makes `send` attach the
original outbound envelope (`error.sql = sql`) and raise a `SurrealError`
carrying the server's `error.message` and the enriched error object as
detail; a frame with no `error` field makes `send` return the frame's
`result` field verbatim. -/
theorem c7_send_completion (sql : String) (frame : Json) :
    (∀ err, getField frame "error" = some err → jsTruthy err = true →
      sendComplete sql frame =
        .error ⟨getField err "message", some (setField err "sql" (.str sql))⟩) ∧
    (getField frame "error" = none →
      sendComplete sql frame = .ok (getField frame "result")) := by
  constructor
  · intro err herr htr
    unfold sendComplete
    simp only [herr, if_pos htr,
      getField_setField err "sql" (.str sql) "message" (by decide)]
  · intro h
    unfold sendComplete
    simp only [h]

/-- Witness for `c7_send_completion`: an error frame gains `sql` in its
detail and raises with the server message; a result frame returns its
`result` verbatim. -/
theorem c7_send_completion_witness :
    getField (.obj [("id", .num 1), ("error", .obj [("message", .str "oops"), ("code", .num 3)])])
        "error" = some (.obj [("message", .str "oops"), ("code", .num 3)]) ∧
    jsTruthy (.obj [("message", .str "oops"), ("code", .num 3)]) = true ∧
    sendComplete "REQ" (.obj [("id", .num 1),
        ("error", .obj [("message", .str "oops"), ("code", .num 3)])]) =
      .error ⟨some (.str "oops"),
              some (.obj [("message", .str "oops"), ("code", .num 3), ("sql", .str "REQ")])⟩ ∧
    getField (.obj [("id", .num 1), ("result", .str "v")]) "error" = none ∧
    sendComplete "REQ" (.obj [("id", .num 1), ("result", .str "v")]) = .ok (some (.str "v")) := by
  have h1 := (c7_send_completion "REQ" (.obj [("id", .num 1),
    ("error", .obj [("message", .str "oops"), ("code", .num 3)])])).1
    (.obj [("message", .str "oops"), ("code", .num 3)]) rfl rfl
  have h2 := (c7_send_completion "REQ" (.obj [("id", .num 1), ("result", .str "v")])).2 rfl
  exact ⟨rfl, rfl, h1, rfl, h2⟩

/-! ## C8 — malformed inbound frame is fatal only to that frame -/

/-- C8: when an inbound frame's text fails to parse as JSON, the handler
reports a parse failure (the thrown `SurrealError` of line 97) and does
nothing else: the correlation table is exactly what it was — no pending
entry resolved, rejected or removed — and the connection is not closed. -/
theorem c8_malformed_frame_isolated (rf : Entry → Json → Option Json) (ch : Channels)
    (raw : String) (h : parseJsonFull raw = none) :
    (handleRaw rf ch raw).channels = ch ∧
    (handleRaw rf ch raw).action =
      .parseFailure ("Failed parse JSON from surreal: " ++ raw) ∧
    (handleRaw rf ch raw).closedConnection = false := by
  unfold handleRaw
  rw [h]
  exact ⟨rfl, rfl, rfl⟩

/-- Witness for `c8_malformed_frame_isolated` on the unparseable text
`"not json"`, with a non-empty pending table that survives unchanged. -/
theorem c8_malformed_frame_isolated_witness :
    parseJsonFull "not json" = none ∧
    (handleRaw (fun _ _ => none)
        (fun j => if j = (0 : Int) then some (Entry.mk 0 "s") else none)
        "not json").channels =
      (fun j => if j = (0 : Int) then some (Entry.mk 0 "s") else none) ∧
    (handleRaw (fun _ _ => none)
        (fun j => if j = (0 : Int) then some (Entry.mk 0 "s") else none)
        "not json").action =
      .parseFailure ("Failed parse JSON from surreal: " ++ "not json") ∧
    (handleRaw (fun _ _ => none)
        (fun j => if j = (0 : Int) then some (Entry.mk 0 "s") else none)
        "not json").closedConnection = false := by
  have h := c8_malformed_frame_isolated (fun _ _ => none)
    (fun j => if j = (0 : Int) then some (Entry.mk 0 "s") else none) "not json" rfl
  exact ⟨rfl, h.1, h.2.1, h.2.2⟩

/-! ## C5 — connection setup under concurrent first calls -/

theorem c5_seq_lemma : ∀ n, 1 ≤ n →
    (runSetup initWorld (seqSched n)).socketsCreated = 1 ∧
    (runSetup initWorld (seqSched n)).wsOpen = true ∧
    (∀ c, c < n → (runSetup initWorld (seqSched n)).phases c = .done) ∧
    (∀ c, n ≤ c → (runSetup initWorld (seqSched n)).phases c = .start) := by
  intro n hn
  induction n with
  | zero => omega
  | succ m ih =>
    rcases Nat.eq_or_lt_of_le hn with h1 | h1
    · -- n = 1: the single caller creates one socket and completes.
      have hm : m = 0 := by omega
      subst hm
      refine ⟨rfl, rfl, ?_, ?_⟩
      · intro c hc
        have : c = 0 := by omega
        subst this
        rfl
      · intro c hc
        show (if c = 0 then CallPhase.done else if c = 0 then CallPhase.awaitingOpen
          else CallPhase.start) = CallPhase.start
        rw [if_neg (by omega), if_neg (by omega)]
    · have hm : 1 ≤ m := by omega
      obtain ⟨ihS, ihO, ihD, ihT⟩ := ih hm
      have hstart : (runSetup initWorld (seqSched m)).phases m = .start := ihT m le_rfl
      have hstep1 : stepSetup (runSetup initWorld (seqSched m)) m =
          { runSetup initWorld (seqSched m) with
            phases := fun j => if j = m then CallPhase.done
              else (runSetup initWorld (seqSched m)).phases j } := by
        simp only [stepSetup, hstart, ihO, if_true]
      have hdone : (stepSetup (runSetup initWorld (seqSched m)) m).phases m = .done := by
        rw [hstep1]
        simp
      have hstep2 : ∀ w : SetupWorld, w.phases m = CallPhase.done → stepSetup w m = w := by
        intro w hw
        simp only [stepSetup, hw]
      have hsplit : runSetup initWorld (seqSched (m + 1)) =
          stepSetup (runSetup initWorld (seqSched m)) m := by
        show List.foldl stepSetup initWorld (seqSched m ++ [m, m]) = _
        rw [List.foldl_append]
        exact hstep2 _ hdone
      rw [hsplit, hstep1]
      refine ⟨ihS, ihO, ?_, ?_⟩
      · intro c hc
        by_cases hcm : c = m
        · simp [hcm]
        · simp only [hcm, if_false]
          exact ihD c (by omega)
      · intro c hc
        simp only [show ¬ c = m by omega, if_false]
        exact ihT c (by omega)

/-- C5, counterexample to the claim as stated: two overlapping first
calls, interleaved guard-check before either open event
(schedule caller 0 guard, caller 1 guard, caller 0 open, caller 1 open),
both run `this.ws = await this.createWebSocket()` — the line-71 guard
reads `this.ws` before either assignment lands — so two sockets are
constructed even though both setups complete; the setup path is not
idempotent under concurrent first calls. -/
theorem c5_setup_counterexample :
    (runSetup initWorld [0, 1, 0, 1]).socketsCreated = 2 ∧
    (runSetup initWorld [0, 1, 0, 1]).wsOpen = true ∧
    (runSetup initWorld [0, 1, 0, 1]).phases 0 = CallPhase.done ∧
    (runSetup initWorld [0, 1, 0, 1]).phases 1 = CallPhase.done ∧
    ¬ (runSetup initWorld [0, 1, 0, 1]).socketsCreated = 1 :=
  ⟨rfl, rfl, rfl, rfl, by decide⟩

/-- C5 (amended): a first operation triggers a connection-setup attempt
exactly when its guard observes no open assigned socket; hence
non-overlapping first operations — each completing before the next starts
— trigger exactly one setup attempt in total for the handle, while
overlapping first calls may each construct their own socket (see the
counterexample). -/
theorem c5_setup_sequential_once (n : Nat) (hn : 1 ≤ n) :
    (runSetup initWorld (seqSched n)).socketsCreated = 1 ∧
    (runSetup initWorld (seqSched n)).wsOpen = true ∧
    (∀ c, c < n → (runSetup initWorld (seqSched n)).phases c = .done) :=
  ⟨(c5_seq_lemma n hn).1, (c5_seq_lemma n hn).2.1, (c5_seq_lemma n hn).2.2.1⟩

/-- Witness for `c5_setup_sequential_once`: three sequential first calls,
one socket. -/
theorem c5_setup_sequential_once_witness :
    1 ≤ 3 ∧
    ((runSetup initWorld (seqSched 3)).socketsCreated = 1 ∧
     (runSetup initWorld (seqSched 3)).wsOpen = true ∧
     (∀ c, c < 3 → (runSetup initWorld (seqSched 3)).phases c = .done)) :=
  ⟨by decide, c5_setup_sequential_once 3 (by decide)⟩

/-! ## C9 — session scoping precedes caller frames -/

/-- C9: on a handle constructed with a (truthy) namespace and database,
the full event trace of the first caller-issued `send` on a not-yet-open
connection is: socket opens, the `use` envelope is the first frame sent on
the wire, its response arrives, only then does the triggering caller's
`setup` return, and only after that is the caller's own envelope sent.
In particular the first `wireSent` frame after the open is the
session-scoping request, before any caller-issued frame. -/
theorem c9_use_first_frame (ns db : String) (hns : ns ≠ "") (hdb : db ≠ "")
    (method : String) (params : Option String) :
    (sendEvents ⟨false, 0, some ⟨some ns, some db⟩⟩ method params).1 =
      [.socketOpened,
       .wireSent (buildSql 0 "use" (some (useParams ns db))),
       .frameReceived 0,
       .setupReturned,
       .wireSent (buildSql 1 method params),
       .frameReceived 1] ∧
    ((sendEvents ⟨false, 0, some ⟨some ns, some db⟩⟩ method params).1.filterMap
        sentFrame).head? =
      some (buildSql 0 "use" (some (useParams ns db))) := by
  have hcred : credOf (some ⟨some ns, some db⟩) = some (ns, db) := by
    simp [credOf, hns, hdb]
  have h1 : setupEvents ⟨true, 0, some ⟨some ns, some db⟩⟩ =
      ([], ⟨true, 0, some ⟨some ns, some db⟩⟩) := by
    rw [setupEvents]
    simp
  have h2 : sendEvents ⟨true, 0, some ⟨some ns, some db⟩⟩ "use"
        (some (useParams ns db)) =
      ([.wireSent (buildSql 0 "use" (some (useParams ns db))), .frameReceived 0],
       ⟨true, 1, some ⟨some ns, some db⟩⟩) := by
    rw [sendEvents, h1]
    simp [idAlloc]
  have h3 : setupEvents ⟨false, 0, some ⟨some ns, some db⟩⟩ =
      ([.socketOpened,
        .wireSent (buildSql 0 "use" (some (useParams ns db))),
        .frameReceived 0,
        .setupReturned],
       ⟨true, 1, some ⟨some ns, some db⟩⟩) := by
    rw [setupEvents]
    simp only [hcred]
    rw [show ({ wsOpen := true, counter := 0, opt := some ⟨some ns, some db⟩ } : TraceState) =
          ⟨true, 0, some ⟨some ns, some db⟩⟩ from rfl]
    rw [h2]
    simp
  have h4 : sendEvents ⟨false, 0, some ⟨some ns, some db⟩⟩ method params =
      ([.socketOpened,
        .wireSent (buildSql 0 "use" (some (useParams ns db))),
        .frameReceived 0,
        .setupReturned,
        .wireSent (buildSql 1 method params),
        .frameReceived 1],
       ⟨true, 2, some ⟨some ns, some db⟩⟩) := by
    rw [sendEvents, h3]
    simp [idAlloc]
  rw [h4]
  refine ⟨rfl, ?_⟩
  simp [sentFrame]

/-- Witness for `c9_use_first_frame` with namespace `"n"`, database `"d"`
and a first caller operation `send "info"`. -/
theorem c9_use_first_frame_witness :
    ("n" : String) ≠ "" ∧ ("d" : String) ≠ "" ∧
    ((sendEvents ⟨false, 0, some ⟨some "n", some "d"⟩⟩ "info" none).1 =
      [.socketOpened,
       .wireSent (buildSql 0 "use" (some (useParams "n" "d"))),
       .frameReceived 0,
       .setupReturned,
       .wireSent (buildSql 1 "info" none),
       .frameReceived 1] ∧
     ((sendEvents ⟨false, 0, some ⟨some "n", some "d"⟩⟩ "info" none).1.filterMap
        sentFrame).head? =
      some (buildSql 0 "use" (some (useParams "n" "d")))) :=
  ⟨by decide, by decide,
   c9_use_first_frame "n" "d" (by decide) (by decide) "info" none⟩

/-! ## C1 — response demultiplexing under arbitrary arrival order -/

theorem handleParsed_channels (rf : Entry → Json → Option Json) (ch : Channels)
    (app : Json) :
    (handleParsed rf ch app).1 = ch ∨ ∃ i, (handleParsed rf ch app).1 = setCh ch i none := by
  unfold handleParsed
  split
  · split
    · exact .inl rfl
    · split
      · exact .inr ⟨_, rfl⟩
      · exact .inr ⟨_, rfl⟩
  · exact .inl rfl

theorem handleParsed_preserve (rf : Entry → Json → Option Json) (ch : Channels)
    (g : Json) (i : Int) (h : ∀ i2, getField g "id" = some (.num i2) → i2 ≠ i) :
    (handleParsed rf ch g).1 i = ch i := by
  unfold handleParsed
  split
  · rename_i i2 hid
    have hne : i2 ≠ i := h i2 hid
    split
    · rfl
    · split
      · simp only [setCh]
        rw [if_neg (fun hc : i = i2 => hne hc.symm)]
      · simp only [setCh]
        rw [if_neg (fun hc : i = i2 => hne hc.symm)]
  · rfl

theorem deliver_channels (st : MuxState) (f : Json) :
    (deliver st f).channels = (handleParsed (fun _ _ => none) st.channels f).1 := by
  unfold deliver
  split
  · rename_i ch e frame heq
    rw [heq]
  · rename_i ch act heq
    rw [heq]

theorem deliver_channels_sub (st : MuxState) (f : Json) (j : Int) (e : Entry)
    (h : (deliver st f).channels j = some e) : st.channels j = some e := by
  rw [deliver_channels] at h
  rcases handleParsed_channels (fun _ _ => none) st.channels f with hc | ⟨i, hc⟩
  · rw [hc] at h
    exact h
  · rw [hc] at h
    unfold setCh at h
    by_cases hj : j = i
    · rw [if_pos hj] at h
      cases h
    · rw [if_neg hj] at h
      exact h

theorem deliver_completed_ne (st : MuxState) (f : Json) (k : Nat)
    (h : ∀ j e, st.channels j = some e → e.callIdx ≠ k) :
    (deliver st f).completed k = st.completed k := by
  unfold deliver
  split
  · rename_i ch e frame heq
    -- the resolved action only arises from a live entry of `st.channels`
    have he : ∃ i, st.channels i = some e := by
      revert heq
      unfold handleParsed
      split
      · rename_i i hid
        split
        · rename_i hch
          intro hpair
          cases hpair
        · rename_i e2 hch
          split
          · rename_i hrf
            intro hpair
            cases hpair
            exact ⟨_, hch⟩
          · rename_i err hrf
            intro hpair
            cases hpair
      · intro hpair
        cases hpair
    obtain ⟨i, hi⟩ := he
    dsimp only
    rw [if_neg (fun hc : k = e.callIdx => h i e hi hc.symm)]
  · rfl

theorem deliverAll_frozen (fs : List Json) : ∀ (st : MuxState) (k : Nat),
    (∀ j e, st.channels j = some e → e.callIdx ≠ k) →
    (deliverAll st fs).completed k = st.completed k := by
  induction fs with
  | nil => intro st k _; rfl
  | cons g fs ih =>
    intro st k h
    show (deliverAll (deliver st g) fs).completed k = st.completed k
    rw [ih (deliver st g) k fun j e he => h j e (deliver_channels_sub st g j e he)]
    exact deliver_completed_ne st g k h

theorem deliver_hit (st : MuxState) (f : Json) (i : Int) (e : Entry)
    (hid : getField f "id" = some (.num i)) (hch : st.channels i = some e) :
    deliver st f = ⟨setCh st.channels i none,
      fun k => if k = e.callIdx then some f else st.completed k⟩ := by
  unfold deliver handleParsed
  simp only [hid, hch]

theorem deliverAll_completes (fs : List Json) : ∀ (st : MuxState) (f : Json) (i : Int)
    (e : Entry),
    f ∈ fs →
    getField f "id" = some (.num i) →
    st.channels i = some e →
    (∀ g ∈ fs, ∀ i2, getField g "id" = some (.num i2) → g ≠ f → i2 ≠ i) →
    (∀ j e2, st.channels j = some e2 → j ≠ i → e2.callIdx ≠ e.callIdx) →
    (deliverAll st fs).completed e.callIdx = some f := by
  induction fs with
  | nil => intro st f i e hmem; cases hmem
  | cons g fs ih =>
    intro st f i e hmem hid hch hdist hinj
    by_cases hgf : g = f
    · subst hgf
      show (deliverAll (deliver st g) fs).completed e.callIdx = some g
      have hfr : ∀ j e2,
          (MuxState.mk (setCh st.channels i none)
            (fun k => if k = e.callIdx then some g else st.completed k)).channels j =
            some e2 → e2.callIdx ≠ e.callIdx := by
        intro j e2 he2
        dsimp only at he2
        unfold setCh at he2
        by_cases hj : j = i
        · rw [if_pos hj] at he2
          cases he2
        · rw [if_neg hj] at he2
          exact hinj j e2 he2 hj
      rw [deliver_hit st g i e hid hch, deliverAll_frozen fs _ e.callIdx hfr]
      simp
    · have hmem2 : f ∈ fs := by
        rcases List.mem_cons.1 hmem with heq | hmem2
        · exact absurd heq.symm hgf
        · exact hmem2
      show (deliverAll (deliver st g) fs).completed e.callIdx = some f
      have hch1 : (deliver st g).channels i = some e := by
        rw [deliver_channels,
          handleParsed_preserve _ _ g i
            (fun i2 hg => hdist g (List.mem_cons_self g fs) i2 hg hgf)]
        exact hch
      exact ih (deliver st g) f i e hmem2 hid hch1
        (fun g2 hg2 i2 hgi2 hne => hdist g2 (List.mem_cons_of_mem g hg2) i2 hgi2 hne)
        (fun j e2 he2 hj => hinj j e2 (deliver_channels_sub st g j e2 he2) hj)

theorem idAlloc_small (s : Nat) (h : s ≤ 1000) : idAlloc s = (s, s + 1) := by
  unfold idAlloc
  rw [if_neg (by omega)]

theorem dispatchList_spec (methodOf : Nat → String) (paramsOf : Nat → Option String) :
    ∀ (count s : Nat) (ch : Channels), s + count ≤ 1001 →
    ∀ j : Int, (dispatchList methodOf paramsOf (ch, s) (List.range' s count)).1 j =
      if (s : Int) ≤ j ∧ j < ((s + count : Nat) : Int) then
        some ⟨j.toNat, buildSql j.toNat (methodOf j.toNat) (paramsOf j.toNat)⟩
      else ch j := by
  intro count
  induction count with
  | zero =>
    intro s ch hle j
    rw [if_neg (by omega)]
    rfl
  | succ c ihc =>
    intro s ch hle j
    rw [List.range'_succ]
    show (dispatchList methodOf paramsOf
        (setCh ch (Int.ofNat (idAlloc s).1)
          (some ⟨s, buildSql (idAlloc s).1 (methodOf s) (paramsOf s)⟩),
         (idAlloc s).2) (List.range' (s + 1) c)).1 j = _
    rw [idAlloc_small s (by omega)]
    dsimp only
    simp only [Int.ofNat_eq_natCast]
    rw [ihc (s + 1) _ (by omega) j]
    by_cases hin : (s : Int) ≤ j ∧ j < ((s + (c + 1) : Nat) : Int)
    · rw [if_pos hin]
      by_cases hj : j = (s : Int)
      · rw [if_neg (by omega)]
        unfold setCh
        rw [if_pos (by omega)]
        subst hj
        simp
      · rw [if_pos (by constructor <;> omega)]
    · rw [if_neg hin, if_neg (by omega)]
      unfold setCh
      rw [if_neg (by omega)]

theorem initMux_channels (methodOf : Nat → String) (paramsOf : Nat → Option String)
    (N : Nat) (hN : N ≤ 1001) (j : Int) :
    (initMux methodOf paramsOf N).channels j =
      if 0 ≤ j ∧ j < (N : Int) then
        some ⟨j.toNat, buildSql j.toNat (methodOf j.toNat) (paramsOf j.toNat)⟩
      else none := by
  show (dispatchList methodOf paramsOf ((fun _ => none), 0) (List.range N)).1 j = _
  rw [List.range_eq_range', dispatchList_spec methodOf paramsOf N 0 _ (by omega) j]
  norm_num

/-- C1: `N` concurrent `send()` calls on a fresh handle (`N` below the id
ceiling) register entries for ids `0, …, N-1`; for any arrival order of
the `N` response frames — any permutation of one response per call, each
carrying its call's id — every call's awaited promise is fulfilled with
exactly the response frame whose `id` equals that call's allocated id. -/
theorem c1_send_correlation (methodOf : Nat → String) (paramsOf : Nat → Option String)
    (N : Nat) (hN : N < 1000) (respOf : Nat → Json) (frames : List Json)
    (hresp : ∀ k, k < N → getField (respOf k) "id" = some (.num (k : Int)))
    (hperm : frames.Perm ((List.range N).map respOf)) :
    ∀ k, k < N →
      (deliverAll (initMux methodOf paramsOf N) frames).completed k = some (respOf k) := by
  intro k hk
  have hch : (initMux methodOf paramsOf N).channels (k : Int) =
      some ⟨k, buildSql k (methodOf k) (paramsOf k)⟩ := by
    rw [initMux_channels methodOf paramsOf N (by omega) (k : Int)]
    rw [if_pos ⟨by omega, by exact_mod_cast hk⟩]
    simp
  have hmemf : respOf k ∈ frames :=
    (List.Perm.mem_iff hperm).2 (List.mem_map.2 ⟨k, List.mem_range.2 hk, rfl⟩)
  have hdist : ∀ g ∈ frames, ∀ i2, getField g "id" = some (.num i2) →
      g ≠ respOf k → i2 ≠ (k : Int) := by
    intro g hg i2 hgid hne hi2
    obtain ⟨k2, hk2, hgk2⟩ := List.mem_map.1 ((List.Perm.mem_iff hperm).1 hg)
    subst hgk2
    have hk2N : k2 < N := List.mem_range.1 hk2
    have hid2 := hresp k2 hk2N
    rw [hid2] at hgid
    injection hgid with h1
    injection h1 with h2
    have : k2 = k := by
      have := h2.trans hi2
      exact_mod_cast this
    exact hne (by rw [this])
  have hinj : ∀ j e2, (initMux methodOf paramsOf N).channels j = some e2 →
      j ≠ (k : Int) →
      e2.callIdx ≠ (Entry.mk k (buildSql k (methodOf k) (paramsOf k))).callIdx := by
    intro j e2 hje2 hjk
    rw [initMux_channels methodOf paramsOf N (by omega) j] at hje2
    by_cases hcond : 0 ≤ j ∧ j < (N : Int)
    · rw [if_pos hcond] at hje2
      injection hje2 with he2
      rw [← he2]
      show j.toNat ≠ k
      omega
    · rw [if_neg hcond] at hje2
      cases hje2
  exact deliverAll_completes frames (initMux methodOf paramsOf N) (respOf k) (k : Int)
    ⟨k, buildSql k (methodOf k) (paramsOf k)⟩ hmemf (hresp k hk) hch hdist hinj

/-- Witness for `c1_send_correlation`: three concurrent calls, responses
arriving out of order (ids 2, 0, 1); every call is fulfilled with the
frame carrying its own id. -/
theorem c1_send_correlation_witness :
    (deliverAll (initMux (fun _ => "select") (fun _ => none) 3)
        [Json.obj [("id", Json.num 2), ("result", Json.num 2)],
         Json.obj [("id", Json.num 0), ("result", Json.num 0)],
         Json.obj [("id", Json.num 1), ("result", Json.num 1)]]).completed 0 =
      some (Json.obj [("id", Json.num 0), ("result", Json.num 0)]) ∧
    (deliverAll (initMux (fun _ => "select") (fun _ => none) 3)
        [Json.obj [("id", Json.num 2), ("result", Json.num 2)],
         Json.obj [("id", Json.num 0), ("result", Json.num 0)],
         Json.obj [("id", Json.num 1), ("result", Json.num 1)]]).completed 1 =
      some (Json.obj [("id", Json.num 1), ("result", Json.num 1)]) ∧
    (deliverAll (initMux (fun _ => "select") (fun _ => none) 3)
        [Json.obj [("id", Json.num 2), ("result", Json.num 2)],
         Json.obj [("id", Json.num 0), ("result", Json.num 0)],
         Json.obj [("id", Json.num 1), ("result", Json.num 1)]]).completed 2 =
      some (Json.obj [("id", Json.num 2), ("result", Json.num 2)]) := by
  have h := c1_send_correlation (fun _ => "select") (fun _ => none) 3 (by norm_num)
    (fun k => Json.obj [("id", Json.num (k : Int)), ("result", Json.num (k : Int))])
    [Json.obj [("id", Json.num 2), ("result", Json.num 2)],
     Json.obj [("id", Json.num 0), ("result", Json.num 0)],
     Json.obj [("id", Json.num 1), ("result", Json.num 1)]]
    (by
      intro k hk
      interval_cases k <;> rfl)
    ((List.Perm.swap (Json.obj [("id", Json.num 0), ("result", Json.num 0)])
        (Json.obj [("id", Json.num 2), ("result", Json.num 2)])
        [Json.obj [("id", Json.num 1), ("result", Json.num 1)]]).trans
      (List.Perm.cons (Json.obj [("id", Json.num 0), ("result", Json.num 0)])
        (List.Perm.swap (Json.obj [("id", Json.num 1), ("result", Json.num 1)])
          (Json.obj [("id", Json.num 2), ("result", Json.num 2)]) [])))
  exact ⟨h 0 (by norm_num), h 1 (by norm_num), h 2 (by norm_num)⟩

/-! ## C10 — unescaped interpolation and JSON well-formedness

Infrastructure: the decimal representation `Nat.repr` consists of digits,
is non-empty, and evaluates back to the number; the string-literal and
number token parsers behave as expected on cleanly interpolated text. -/

theorem digitChar_isDigit (m : Nat) (h : m < 10) : (Nat.digitChar m).isDigit = true := by
  interval_cases m <;> decide

theorem digitChar_toNat (m : Nat) (h : m < 10) : (Nat.digitChar m).toNat = 48 + m := by
  interval_cases m <;> decide

theorem toDigitsCore_digits : ∀ (fuel n : Nat) (ds : List Char),
    (∀ c ∈ ds, c.isDigit = true) →
    ∀ c ∈ Nat.toDigitsCore 10 fuel n ds, c.isDigit = true := by
  intro fuel
  induction fuel with
  | zero => intro n ds h c hc; exact h c hc
  | succ f ih =>
    intro n ds h c hc
    rw [Nat.toDigitsCore] at hc
    by_cases hz : n / 10 = 0
    · rw [if_pos hz] at hc
      rcases List.mem_cons.1 hc with hd | hd
      · rw [hd]
        exact digitChar_isDigit _ (Nat.mod_lt _ (by norm_num))
      · exact h c hd
    · rw [if_neg hz] at hc
      refine ih (n / 10) _ ?_ c hc
      intro c2 hc2
      rcases List.mem_cons.1 hc2 with hd | hd
      · rw [hd]
        exact digitChar_isDigit _ (Nat.mod_lt _ (by norm_num))
      · exact h c2 hd

theorem toDigitsCore_ne_nil_aux : ∀ (fuel n : Nat) (ds : List Char),
    ds ≠ [] → Nat.toDigitsCore 10 fuel n ds ≠ [] := by
  intro fuel
  induction fuel with
  | zero => intro n ds h; exact h
  | succ f ih =>
    intro n ds h
    rw [Nat.toDigitsCore]
    by_cases hz : n / 10 = 0
    · rw [if_pos hz]
      exact List.cons_ne_nil _ _
    · rw [if_neg hz]
      exact ih (n / 10) _ (List.cons_ne_nil _ _)

theorem toDigits_ne_nil (n : Nat) : Nat.toDigits 10 n ≠ [] := by
  rw [Nat.toDigits, Nat.toDigitsCore]
  by_cases hz : n / 10 = 0
  · rw [if_pos hz]
    exact List.cons_ne_nil _ _
  · rw [if_neg hz]
    exact toDigitsCore_ne_nil_aux _ _ _ (List.cons_ne_nil _ _)

theorem repr_data_eq (n : Nat) : (Nat.repr n).data = Nat.toDigits 10 n := rfl

theorem repr_digits (n : Nat) : ∀ c ∈ (Nat.repr n).data, c.isDigit = true := by
  rw [repr_data_eq, Nat.toDigits]
  exact toDigitsCore_digits _ _ _ (by intro c hc; cases hc)

theorem repr_ne_nil (n : Nat) : (Nat.repr n).data ≠ [] := by
  rw [repr_data_eq]
  exact toDigits_ne_nil n

theorem toDigitsCore_acc : ∀ (fuel n : Nat) (ds : List Char),
    Nat.toDigitsCore 10 fuel n ds = Nat.toDigitsCore 10 fuel n [] ++ ds := by
  intro fuel
  induction fuel with
  | zero => intro n ds; rfl
  | succ f ih =>
    intro n ds
    rw [Nat.toDigitsCore, Nat.toDigitsCore]
    by_cases hz : n / 10 = 0
    · rw [if_pos hz, if_pos hz]
      rfl
    · rw [if_neg hz, if_neg hz]
      rw [ih (n / 10) [Nat.digitChar (n % 10)], ih (n / 10) (Nat.digitChar (n % 10) :: ds)]
      rw [List.append_assoc]
      rfl

theorem digitsVal_core : ∀ (fuel n : Nat), n ≤ fuel →
    digitsVal (Nat.toDigitsCore 10 (fuel + 1) n []) = n := by
  intro fuel
  induction fuel with
  | zero =>
    intro n hn
    have : n = 0 := by omega
    subst this
    rfl
  | succ f ih =>
    intro n hn
    rw [Nat.toDigitsCore]
    by_cases hz : n / 10 = 0
    · rw [if_pos hz]
      show digitsVal [Nat.digitChar (n % 10)] = n
      have h10 : n < 10 := by omega
      have : n % 10 = n := Nat.mod_eq_of_lt h10
      rw [this]
      show 0 * 10 + ((Nat.digitChar n).toNat - 48) = n
      rw [digitChar_toNat n h10]
      omega
    · rw [if_neg hz]
      rw [toDigitsCore_acc]
      have hdiv : n / 10 ≤ f := by omega
      have hval := ih (n / 10) hdiv
      unfold digitsVal
      rw [List.foldl_append]
      unfold digitsVal at hval
      rw [hval]
      show n / 10 * 10 + ((Nat.digitChar (n % 10)).toNat - 48) = n
      rw [digitChar_toNat _ (Nat.mod_lt _ (by norm_num))]
      omega

theorem repr_val (n : Nat) : digitsVal ((Nat.repr n).data) = n := by
  rw [repr_data_eq, Nat.toDigits]
  exact digitsVal_core n n le_rfl

theorem skipWs_cons (c : Char) (cs : List Char) (h : isWsChar c = false) :
    skipWs (c :: cs) = c :: cs := by
  rw [skipWs, h]
  rfl

theorem parseStringBody_clean : ∀ (content rest : List Char),
    content.all jsonSafeChar = true →
    parseStringBody (content ++ '"' :: rest) = some (content, rest) := by
  intro content
  induction content with
  | nil =>
    intro rest _
    rw [List.nil_append, parseStringBody.eq_def]
    dsimp only
    rw [if_pos rfl]
  | cons c cs ih =>
    intro rest h
    rw [List.all_cons, Bool.and_eq_true] at h
    have hc := h.1
    rw [jsonSafeChar, Bool.and_eq_true, Bool.and_eq_true] at hc
    have h1 : ¬ c = '"' := by simpa using hc.1.1
    have h2 : ¬ c = '\\' := by simpa using hc.1.2
    have h3 : ¬ c.toNat < 32 := by
      have := of_decide_eq_true hc.2
      omega
    rw [List.cons_append, parseStringBody.eq_def]
    dsimp only
    rw [if_neg h1, if_neg h2, if_neg h3, ih rest h.2]

theorem takeDigits_append : ∀ (ds : List Char) (c : Char) (r : List Char),
    (∀ d ∈ ds, d.isDigit = true) → c.isDigit = false →
    takeDigits (ds ++ c :: r) = (ds, c :: r) := by
  intro ds
  induction ds with
  | nil =>
    intro c r _ hc
    rw [List.nil_append, takeDigits, hc]
    rfl
  | cons d ds2 ih =>
    intro c r hall hc
    rw [List.cons_append, takeDigits, hall d (List.mem_cons_self d ds2),
      ih c r (fun x hx => hall x (List.mem_cons_of_mem d hx)) hc]
    rfl

theorem ne_of_digit (d x : Char) (hd : d.isDigit = true) (hx : x.isDigit = false) :
    ¬ d = x := by
  intro h
  rw [h, hx] at hd
  cases hd

theorem parseNumber_digits (ds : List Char) (c : Char) (r : List Char)
    (hne : ds ≠ []) (hall : ∀ d ∈ ds, d.isDigit = true)
    (hc : c.isDigit = false) (hdot : ¬ c = '.')
    (he : ¬ (c = 'e' ∨ c = 'E')) :
    parseNumber (ds ++ c :: r) = some (.num (Int.ofNat (digitsVal ds)), c :: r) := by
  cases ds with
  | nil => exact absurd rfl hne
  | cons d ds2 =>
    have hd := hall d (List.mem_cons_self d ds2)
    have hdm : ¬ d = '-' := ne_of_digit d '-' hd (by decide)
    rw [parseNumber.eq_def]
    simp only [List.cons_append]
    rw [if_neg hdm]
    dsimp only
    rw [← List.cons_append, takeDigits_append (d :: ds2) c r hall hc]
    dsimp only
    rw [if_neg hdot]
    dsimp only
    rw [if_neg he]
    rfl

theorem isWsChar_of_digit (d : Char) (hd : d.isDigit = true) : isWsChar d = false := by
  have h1 : ¬ d = ' ' := ne_of_digit d ' ' hd (by decide)
  have h2 : ¬ d = '\n' := ne_of_digit d '\n' hd (by decide)
  have h3 : ¬ d = '\t' := ne_of_digit d '\t' hd (by decide)
  have h4 : ¬ d = '\r' := ne_of_digit d '\r' hd (by decide)
  simp [isWsChar, h1, h2, h3, h4]

theorem parseValue_str (fuel : Nat) (content rest : List Char)
    (h : content.all jsonSafeChar = true) :
    parseValue (fuel + 1) ('"' :: (content ++ '"' :: rest)) =
      some (.str (String.mk content), rest) := by
  rw [parseValue]
  rw [skipWs_cons _ _ (by decide)]
  dsimp only
  rw [if_neg (by decide), if_neg (by decide), if_neg (by decide), if_pos rfl]
  rw [parseStringBody_clean content rest h]

theorem parseValue_num (fuel : Nat) (ds : List Char) (c : Char) (r : List Char)
    (hne : ds ≠ []) (hall : ∀ d ∈ ds, d.isDigit = true)
    (hc : c.isDigit = false) (hdot : ¬ c = '.')
    (he : ¬ (c = 'e' ∨ c = 'E')) :
    parseValue (fuel + 1) (ds ++ c :: r) =
      some (.num (Int.ofNat (digitsVal ds)), c :: r) := by
  cases ds with
  | nil => exact absurd rfl hne
  | cons d ds2 =>
    have hd := hall d (List.mem_cons_self d ds2)
    rw [parseValue]
    simp only [List.cons_append]
    rw [skipWs_cons _ _ (isWsChar_of_digit d hd)]
    dsimp only
    rw [if_neg (ne_of_digit d 'n' hd (by decide)),
      if_neg (ne_of_digit d 't' hd (by decide)),
      if_neg (ne_of_digit d 'f' hd (by decide)),
      if_neg (ne_of_digit d '"' hd (by decide)),
      if_neg (ne_of_digit d '[' hd (by decide)),
      if_neg (ne_of_digit d lbraceChar hd (by decide))]
    rw [← List.cons_append, parseNumber_digits (d :: ds2) c r (List.cons_ne_nil d ds2)
      hall hc hdot he]

theorem parseElems_two (fuel : Nat) (ns db rest : List Char)
    (hns : ns.all jsonSafeChar = true) (hdb : db.all jsonSafeChar = true) :
    parseElems (fuel + 3)
        ('"' :: (ns ++ '"' :: ',' :: '"' :: (db ++ '"' :: ']' :: rest))) =
      some ([.str (String.mk ns), .str (String.mk db)], rest) := by
  show parseElems ((fuel + 2) + 1) _ = _
  rw [parseElems]
  rw [show fuel + 2 = (fuel + 1) + 1 from rfl,
    parseValue_str (fuel + 1) ns (',' :: '"' :: (db ++ '"' :: ']' :: rest)) hns]
  dsimp only
  rw [skipWs_cons _ _ (by decide)]
  dsimp only
  rw [if_pos rfl]
  rw [show fuel + 1 + 1 = (fuel + 1) + 1 from rfl]
  rw [parseElems]
  rw [parseValue_str fuel db (']' :: rest) hdb]
  dsimp only
  rw [skipWs_cons _ _ (by decide)]
  dsimp only
  rw [if_neg (by decide), if_pos rfl]

theorem parseValue_arr2 (fuel : Nat) (ns db rest : List Char)
    (hns : ns.all jsonSafeChar = true) (hdb : db.all jsonSafeChar = true) :
    parseValue (fuel + 4)
        ('[' :: '"' :: (ns ++ '"' :: ',' :: '"' :: (db ++ '"' :: ']' :: rest))) =
      some (.arr [.str (String.mk ns), .str (String.mk db)], rest) := by
  show parseValue ((fuel + 3) + 1) _ = _
  rw [parseValue]
  rw [skipWs_cons _ _ (by decide)]
  dsimp only
  rw [if_neg (by decide), if_neg (by decide), if_neg (by decide), if_neg (by decide),
    if_pos rfl]
  rw [skipWs_cons _ _ (by decide)]
  dsimp only
  rw [if_neg (by decide)]
  rw [parseElems_two fuel ns db rest hns hdb]

theorem parseMembers_frame_params (fuel : Nat) (idds method ns db : List Char)
    (hid_ne : idds ≠ []) (hid_all : ∀ d ∈ idds, d.isDigit = true)
    (hm : method.all jsonSafeChar = true)
    (hns : ns.all jsonSafeChar = true) (hdb : db.all jsonSafeChar = true) :
    parseMembers (fuel + 7)
        ('"' :: 'i' :: 'd' :: '"' :: ':' :: (idds ++
          ',' :: '"' :: 'm' :: 'e' :: 't' :: 'h' :: 'o' :: 'd' :: '"' :: ':' :: '"' :: (method ++
          '"' :: ',' :: '"' :: 'p' :: 'a' :: 'r' :: 'a' :: 'm' :: 's' :: '"' :: ':' ::
            '[' :: '"' :: (ns ++
          '"' :: ',' :: '"' :: (db ++ '"' :: ']' :: rbraceChar :: []))))) =
      some ([("id", .num (Int.ofNat (digitsVal idds))),
             ("method", .str (String.mk method)),
             ("params", .arr [.str (String.mk ns), .str (String.mk db)])], []) := by
  show parseMembers ((fuel + 6) + 1) _ = _
  rw [parseMembers]
  rw [skipWs_cons _ _ (by decide)]
  dsimp only
  rw [if_pos rfl]
  rw [show ('i' :: 'd' :: '"' :: ':' :: (idds ++
        ',' :: '"' :: 'm' :: 'e' :: 't' :: 'h' :: 'o' :: 'd' :: '"' :: ':' :: '"' :: (method ++
        '"' :: ',' :: '"' :: 'p' :: 'a' :: 'r' :: 'a' :: 'm' :: 's' :: '"' :: ':' ::
          '[' :: '"' :: (ns ++
        '"' :: ',' :: '"' :: (db ++ '"' :: ']' :: rbraceChar :: [])))) : List Char) =
      ['i', 'd'] ++ '"' :: (':' :: (idds ++
        ',' :: '"' :: 'm' :: 'e' :: 't' :: 'h' :: 'o' :: 'd' :: '"' :: ':' :: '"' :: (method ++
        '"' :: ',' :: '"' :: 'p' :: 'a' :: 'r' :: 'a' :: 'm' :: 's' :: '"' :: ':' ::
          '[' :: '"' :: (ns ++
        '"' :: ',' :: '"' :: (db ++ '"' :: ']' :: rbraceChar :: []))))) from rfl]
  rw [parseStringBody_clean ['i', 'd'] _ (by decide)]
  dsimp only
  rw [skipWs_cons _ _ (by decide)]
  dsimp only
  rw [if_pos rfl]
  rw [show fuel + 6 = (fuel + 5) + 1 from rfl,
    parseValue_num (fuel + 5) idds ','
      ('"' :: 'm' :: 'e' :: 't' :: 'h' :: 'o' :: 'd' :: '"' :: ':' :: '"' :: (method ++
        '"' :: ',' :: '"' :: 'p' :: 'a' :: 'r' :: 'a' :: 'm' :: 's' :: '"' :: ':' ::
          '[' :: '"' :: (ns ++
        '"' :: ',' :: '"' :: (db ++ '"' :: ']' :: rbraceChar :: []))))
      hid_ne hid_all (by decide) (by decide) (by decide)]
  dsimp only
  rw [skipWs_cons _ _ (by decide)]
  dsimp only
  rw [if_pos rfl]
  -- second member: "method"
  rw [show fuel + 5 + 1 = (fuel + 5) + 1 from rfl, parseMembers]
  rw [skipWs_cons _ _ (by decide)]
  dsimp only
  rw [if_pos rfl]
  rw [show ('m' :: 'e' :: 't' :: 'h' :: 'o' :: 'd' :: '"' :: ':' :: '"' :: (method ++
        '"' :: ',' :: '"' :: 'p' :: 'a' :: 'r' :: 'a' :: 'm' :: 's' :: '"' :: ':' ::
          '[' :: '"' :: (ns ++
        '"' :: ',' :: '"' :: (db ++ '"' :: ']' :: rbraceChar :: []))) : List Char) =
      ['m', 'e', 't', 'h', 'o', 'd'] ++ '"' :: (':' :: '"' :: (method ++
        '"' :: ',' :: '"' :: 'p' :: 'a' :: 'r' :: 'a' :: 'm' :: 's' :: '"' :: ':' ::
          '[' :: '"' :: (ns ++
        '"' :: ',' :: '"' :: (db ++ '"' :: ']' :: rbraceChar :: [])))) from rfl]
  rw [parseStringBody_clean ['m', 'e', 't', 'h', 'o', 'd'] _ (by decide)]
  dsimp only
  rw [skipWs_cons _ _ (by decide)]
  dsimp only
  rw [if_pos rfl]
  rw [show fuel + 5 = (fuel + 4) + 1 from rfl,
    parseValue_str (fuel + 4) method
      (',' :: '"' :: 'p' :: 'a' :: 'r' :: 'a' :: 'm' :: 's' :: '"' :: ':' ::
        '[' :: '"' :: (ns ++ '"' :: ',' :: '"' :: (db ++ '"' :: ']' :: rbraceChar :: [])))
      hm]
  dsimp only
  rw [skipWs_cons _ _ (by decide)]
  dsimp only
  rw [if_pos rfl]
  -- third member: "params"
  rw [show fuel + 4 + 1 = (fuel + 4) + 1 from rfl, parseMembers]
  rw [skipWs_cons _ _ (by decide)]
  dsimp only
  rw [if_pos rfl]
  rw [show ('p' :: 'a' :: 'r' :: 'a' :: 'm' :: 's' :: '"' :: ':' :: '[' :: '"' :: (ns ++
        '"' :: ',' :: '"' :: (db ++ '"' :: ']' :: rbraceChar :: [])) : List Char) =
      ['p', 'a', 'r', 'a', 'm', 's'] ++ '"' :: (':' :: '[' :: '"' :: (ns ++
        '"' :: ',' :: '"' :: (db ++ '"' :: ']' :: rbraceChar :: []))) from rfl]
  rw [parseStringBody_clean ['p', 'a', 'r', 'a', 'm', 's'] _ (by decide)]
  dsimp only
  rw [skipWs_cons _ _ (by decide)]
  dsimp only
  rw [if_pos rfl]
  rw [parseValue_arr2 fuel ns db (rbraceChar :: []) hns hdb]
  dsimp only
  rw [skipWs_cons _ _ (by decide)]
  dsimp only
  rw [if_neg (by decide), if_pos rfl]

theorem parseMembers_frame_noparams (fuel : Nat) (idds method : List Char)
    (hid_ne : idds ≠ []) (hid_all : ∀ d ∈ idds, d.isDigit = true)
    (hm : method.all jsonSafeChar = true) :
    parseMembers (fuel + 3)
        ('"' :: 'i' :: 'd' :: '"' :: ':' :: (idds ++
          ',' :: '"' :: 'm' :: 'e' :: 't' :: 'h' :: 'o' :: 'd' :: '"' :: ':' :: '"' ::
            (method ++ '"' :: rbraceChar :: []))) =
      some ([("id", .num (Int.ofNat (digitsVal idds))),
             ("method", .str (String.mk method))], []) := by
  show parseMembers ((fuel + 2) + 1) _ = _
  rw [parseMembers]
  rw [skipWs_cons _ _ (by decide)]
  dsimp only
  rw [if_pos rfl]
  rw [show ('i' :: 'd' :: '"' :: ':' :: (idds ++
        ',' :: '"' :: 'm' :: 'e' :: 't' :: 'h' :: 'o' :: 'd' :: '"' :: ':' :: '"' ::
          (method ++ '"' :: rbraceChar :: [])) : List Char) =
      ['i', 'd'] ++ '"' :: (':' :: (idds ++
        ',' :: '"' :: 'm' :: 'e' :: 't' :: 'h' :: 'o' :: 'd' :: '"' :: ':' :: '"' ::
          (method ++ '"' :: rbraceChar :: []))) from rfl]
  rw [parseStringBody_clean ['i', 'd'] _ (by decide)]
  dsimp only
  rw [skipWs_cons _ _ (by decide)]
  dsimp only
  rw [if_pos rfl]
  rw [show fuel + 2 = (fuel + 1) + 1 from rfl,
    parseValue_num (fuel + 1) idds ','
      ('"' :: 'm' :: 'e' :: 't' :: 'h' :: 'o' :: 'd' :: '"' :: ':' :: '"' ::
        (method ++ '"' :: rbraceChar :: []))
      hid_ne hid_all (by decide) (by decide) (by decide)]
  dsimp only
  rw [skipWs_cons _ _ (by decide)]
  dsimp only
  rw [if_pos rfl]
  rw [show fuel + 1 + 1 = (fuel + 1) + 1 from rfl, parseMembers]
  rw [skipWs_cons _ _ (by decide)]
  dsimp only
  rw [if_pos rfl]
  rw [show ('m' :: 'e' :: 't' :: 'h' :: 'o' :: 'd' :: '"' :: ':' :: '"' ::
        (method ++ '"' :: rbraceChar :: []) : List Char) =
      ['m', 'e', 't', 'h', 'o', 'd'] ++ '"' :: (':' :: '"' ::
        (method ++ '"' :: rbraceChar :: [])) from rfl]
  rw [parseStringBody_clean ['m', 'e', 't', 'h', 'o', 'd'] _ (by decide)]
  dsimp only
  rw [skipWs_cons _ _ (by decide)]
  dsimp only
  rw [if_pos rfl]
  rw [parseValue_str fuel method (rbraceChar :: []) hm]
  dsimp only
  rw [skipWs_cons _ _ (by decide)]
  dsimp only
  rw [if_neg (by decide), if_pos rfl]

theorem useParams_ne_empty (ns db : String) : ¬ useParams ns db = "" := by
  intro h0
  have h1 := congrArg String.data h0
  have h2 : (useParams ns db).data =
      '[' :: '"' :: (((ns.data ++ ("\",\"" : String).data) ++ db.data) ++
        ("\"]" : String).data) := rfl
  rw [h2] at h1
  exact absurd h1 (List.cons_ne_nil _ _)

theorem buildSql_params_data (id : Nat) (method ns db : String) :
    (buildSql id method (some (useParams ns db))).data =
      lbraceChar :: '"' :: 'i' :: 'd' :: '"' :: ':' :: ((Nat.repr id).data ++
        ',' :: '"' :: 'm' :: 'e' :: 't' :: 'h' :: 'o' :: 'd' :: '"' :: ':' :: '"' ::
          (method.data ++
        '"' :: ',' :: '"' :: 'p' :: 'a' :: 'r' :: 'a' :: 'm' :: 's' :: '"' :: ':' ::
          '[' :: '"' :: (ns.data ++
        '"' :: ',' :: '"' :: (db.data ++ '"' :: ']' :: rbraceChar :: [])))) := by
  rw [buildSql]
  rw [if_neg (useParams_ne_empty ns db), useParams]
  simp only [String.data_append, List.append_assoc]
  rfl

theorem buildSql_noparams_data (id : Nat) (method : String) :
    (buildSql id method none).data =
      lbraceChar :: '"' :: 'i' :: 'd' :: '"' :: ':' :: ((Nat.repr id).data ++
        ',' :: '"' :: 'm' :: 'e' :: 't' :: 'h' :: 'o' :: 'd' :: '"' :: ':' :: '"' ::
          (method.data ++ '"' :: rbraceChar :: [])) := by
  rw [buildSql]
  simp only [String.data_append, List.append_assoc]
  rfl

theorem parseValue_frame_params (F : Nat) (id : Nat) (method ns db : String)
    (hm : jsonSafeStr method = true) (hns : jsonSafeStr ns = true)
    (hdb : jsonSafeStr db = true) :
    parseValue (F + 8) ((buildSql id method (some (useParams ns db))).data) =
      some (.obj [("id", .num (Int.ofNat id)), ("method", .str method),
                  ("params", .arr [.str ns, .str db])], []) := by
  rw [buildSql_params_data id method ns db]
  show parseValue ((F + 7) + 1) _ = _
  rw [parseValue]
  rw [skipWs_cons _ _ (by decide)]
  dsimp only
  rw [if_neg (by decide), if_neg (by decide), if_neg (by decide), if_neg (by decide),
    if_neg (by decide), if_pos rfl]
  rw [skipWs_cons _ _ (by decide)]
  dsimp only
  rw [if_neg (by decide)]
  rw [parseMembers_frame_params F (Nat.repr id).data method.data ns.data db.data
    (repr_ne_nil id) (repr_digits id) hm hns hdb]
  rw [repr_val id]

theorem parseValue_frame_noparams (F : Nat) (id : Nat) (method : String)
    (hm : jsonSafeStr method = true) :
    parseValue (F + 4) ((buildSql id method none).data) =
      some (.obj [("id", .num (Int.ofNat id)), ("method", .str method)], []) := by
  rw [buildSql_noparams_data id method]
  show parseValue ((F + 3) + 1) _ = _
  rw [parseValue]
  rw [skipWs_cons _ _ (by decide)]
  dsimp only
  rw [if_neg (by decide), if_neg (by decide), if_neg (by decide), if_neg (by decide),
    if_neg (by decide), if_pos rfl]
  rw [skipWs_cons _ _ (by decide)]
  dsimp only
  rw [if_neg (by decide)]
  rw [parseMembers_frame_noparams F (Nat.repr id).data method.data
    (repr_ne_nil id) (repr_digits id) hm]
  rw [repr_val id]

theorem parseJsonFull_frame_params (id : Nat) (method ns db : String)
    (hm : jsonSafeStr method = true) (hns : jsonSafeStr ns = true)
    (hdb : jsonSafeStr db = true) :
    parseJsonFull (buildSql id method (some (useParams ns db))) =
      some (.obj [("id", .num (Int.ofNat id)), ("method", .str method),
                  ("params", .arr [.str ns, .str db])]) := by
  have hlen : 7 ≤ (buildSql id method (some (useParams ns db))).length := by
    show 7 ≤ (buildSql id method (some (useParams ns db))).data.length
    rw [buildSql_params_data id method ns db]
    simp [List.length_append]
    omega
  obtain ⟨F, hF⟩ : ∃ F, (buildSql id method (some (useParams ns db))).length + 1 =
      F + 8 := ⟨(buildSql id method (some (useParams ns db))).length - 7, by omega⟩
  rw [parseJsonFull, hF, parseValue_frame_params F id method ns db hm hns hdb]
  rfl

theorem parseJsonFull_frame_noparams (id : Nat) (method : String)
    (hm : jsonSafeStr method = true) :
    parseJsonFull (buildSql id method none) =
      some (.obj [("id", .num (Int.ofNat id)), ("method", .str method)]) := by
  have hlen : 3 ≤ (buildSql id method none).length := by
    show 3 ≤ (buildSql id method none).data.length
    rw [buildSql_noparams_data id method]
    simp [List.length_append]
  obtain ⟨F, hF⟩ : ∃ F, (buildSql id method none).length + 1 = F + 4 :=
    ⟨(buildSql id method none).length - 3, by omega⟩
  rw [parseJsonFull, hF, parseValue_frame_noparams F id method hm]
  rfl

/-- C10, counterexample to the claim as stated: the argument `"a\nb"`
contains neither a double quote nor a backslash, yet the transmitted `use`
frame built from it is not valid JSON — the raw control character U+000A
lands unescaped inside a string literal, which the JSON grammar forbids. -/
theorem c10_interpolation_counterexample :
    (("a\nb" : String).data.all (fun c => c != '"' && c != '\\')) = true ∧
    parseJsonFull (buildSql 0 "use" (some (useParams "a\nb" "db"))) = none :=
  ⟨by decide, rfl⟩

/-- C10 (amended): `send` builds the envelope by inserting the method and
the caller-built argument text character-for-character with no escaping.
Consequently (i) for every method and namespace/database argument free of
double quotes, backslashes, and control characters (below U+0020) the
transmitted frame is a well-formed JSON object of the wire shape —
`id` a number, `method` the method string, `params` the argument array —
both with and without params; and (ii) for some argument containing a
double quote the transmitted frame is not valid JSON. -/
theorem c10_interpolation_wellformed :
    (∀ (id : Nat) (method ns db : String),
        jsonSafeStr method = true → jsonSafeStr ns = true → jsonSafeStr db = true →
        parseJsonFull (buildSql id method (some (useParams ns db))) =
          some (.obj [("id", .num (Int.ofNat id)), ("method", .str method),
                      ("params", .arr [.str ns, .str db])])) ∧
    (∀ (id : Nat) (method : String), jsonSafeStr method = true →
        parseJsonFull (buildSql id method none) =
          some (.obj [("id", .num (Int.ofNat id)), ("method", .str method)])) ∧
    parseJsonFull (buildSql 0 "use" (some (useParams "a\"b" "db"))) = none :=
  ⟨fun id method ns db hm hns hdb => parseJsonFull_frame_params id method ns db hm hns hdb,
   fun id method hm => parseJsonFull_frame_noparams id method hm,
   rfl⟩

/-- Witness for `c10_interpolation_wellformed`: the `use` frame for
namespace `"testns"`, database `"testdb"`, id 7, parses back to exactly
the wire-shaped object. -/
theorem c10_interpolation_wellformed_witness :
    jsonSafeStr "use" = true ∧ jsonSafeStr "testns" = true ∧ jsonSafeStr "testdb" = true ∧
    parseJsonFull (buildSql 7 "use" (some (useParams "testns" "testdb"))) =
      some (.obj [("id", .num 7), ("method", .str "use"),
                  ("params", .arr [.str "testns", .str "testdb"])]) :=
  ⟨by decide, by decide, by decide,
   c10_interpolation_wellformed.1 7 "use" "testns" "testdb"
     (by decide) (by decide) (by decide)⟩

end SurrealBun
